import Mathlib

/-!
Shallow embedding of the reactive-cell subsystem (`src/RBox.ts`) of the
f-box-core repository.

An `RBox` (reactive cell) owns a current value, an insertion-ordered
registry of observers keyed by strings drawn from a random generator, and
an ordered list of teardown handlers.  Derivations (`map`, `apply`,
`flatMap`) build new cells wired to their sources by subscriptions and
record teardown actions; `detach` runs and clears those actions.

Observers and teardown handlers are closures in the source; here they are
defunctionalized: each constructor of `RBox.Obs` / `RBox.Handler` is one
closure shape occurring in `src/RBox.ts`.  The mutable `innerBox` variable
captured by the closures of `flatMap` is modelled as a per-derived-cell entry in
the state (`St.inner`).  The stream of keys produced by
`Math.random().toString(36).substr(2, 9)` is modelled as an arbitrary
stream `St.rand : Nat → String` consumed at index `St.ridx`, so both
collision-free and colliding runs are expressible.  User-supplied observers
(test callbacks) are modelled by `Obs.user i`, which appends `(i, value)`
to an event log, making "observer o was invoked with v" observable.
-/

namespace RBox

/- `Fn`: defunctionalized pure functions `T → U` passed to `setValue`
(updater form), `map` and `flatMap`, together with the values they act on.
`Val` is the universe of runtime values a cell can hold: numbers, strings,
`undefV` (the result of an ill-typed primitive application) and first-class
functions (`Val.fn`), which is what the `typeof` test of `setValue` looks for. -/
mutual

inductive Fn where
  | idF : Fn
  | constV : Val → Fn
  | mulK : Int → Fn
  | addK : Int → Fn
  | mkConstF : Fn
  deriving DecidableEq

inductive Val where
  | num : Int → Val
  | str : String → Val
  | undefV : Val
  | fn : Fn → Val
  deriving DecidableEq

end

/-- Application of a defunctionalized function to a value.
`mulK k` is `x => x * k`, `addK k` is `x => x + k`, `constV v` is `_ => v`,
`mkConstF` is `x => (_ => x)` (a function-returning function). -/
def applyFn : Fn → Val → Val
  | .idF, v => v
  | .constV c, _ => c
  | .mulK k, .num n => .num (n * k)
  | .mulK _, _ => .undefV
  | .addK k, .num n => .num (n + k)
  | .addK _, _ => .undefV
  | .mkConstF, v => .fn (.constV v)

/-- The check `typeof v === "function"` (`src/RBox.ts:127`). -/
def Val.isFn : Val → Bool
  | .fn _ => true
  | _ => false

/-- Calling a boxed value as a function, as `apply` does with
`this.getValue()(boxValue.getValue())` (`src/RBox.ts:178`); calling a
non-function is a caller type error, modelled as `undefV`. -/
def callVal : Val → Val → Val
  | .fn f, v => applyFn f v
  | _, _ => .undefV

/-- The value actually stored by `setValue` (`src/RBox.ts:126-131`): a
function argument is treated as an updater applied to the previous value,
anything else replaces the value. -/
def computeNew (newValue cur : Val) : Val :=
  match newValue with
  | .fn f => applyFn f cur
  | v => v

/-- The argument of `flatMap`: a function from values to cells.
`packOf f` is `x => pack (f x)` (allocates a fresh root cell),
`constBox c` is `_ => c` for an already existing cell `c`. -/
inductive FnBox where
  | packOf : Fn → FnBox
  | constBox : Nat → FnBox
  deriving DecidableEq

/-- Defunctionalized observer closures (cells are named by `Nat` ids):
* `user i` — a test callback, logs `(i, value)`;
* `mapObs f d` — the observer `(newValue) => derivedBox.setValue(fn(newValue))` of `map`
  (`src/RBox.ts:137-139`);
* `fwd d` — the forwarder `(innerValue) => derivedBox.setValue(innerValue)` of `flatMap`
  (`src/RBox.ts:153-155, 164-166`);
* `applyObs fc ac d` — the shared `handleChange` of `apply`, reading both sources live
  (`src/RBox.ts:180-181`);
* `outerObs fb d` — the `updateInnerBox` closure of `flatMap` (`src/RBox.ts:149-159`). -/
inductive Obs where
  | user : Nat → Obs
  | mapObs : Fn → Nat → Obs
  | fwd : Nat → Obs
  | applyObs : Nat → Nat → Nat → Obs
  | outerObs : FnBox → Nat → Obs
  deriving DecidableEq

/-- Defunctionalized teardown closures pushed onto `detachHandlers`:
* `unsub c k` — `() => unsubscribe(observerKey)` (`src/RBox.ts:141, 162`);
* `unsub2 c1 k1 c2 k2` — the single handler of `apply` unsubscribing from both
  sources (`src/RBox.ts:187-190`);
* `unsubInner d k` — `() => innerBox.unsubscribe(innerObserverKey)`
  (`src/RBox.ts:156-158, 167-169`): `innerBox` is the mutable variable of
  the `flatMap` invocation that built derived cell `d`, so the handler
  resolves the CURRENT inner cell of `d` at run time. -/
inductive Handler where
  | unsub : Nat → String → Handler
  | unsub2 : Nat → String → Nat → String → Handler
  | unsubInner : Nat → String → Handler
  deriving DecidableEq

/-- One reactive cell: current value, insertion-ordered observer registry
(a JS `Map` keyed by strings), and the teardown list. -/
structure Cell where
  value : Val
  observers : List (String × Obs)
  detachHandlers : List Handler
  deriving DecidableEq

def emptyCell : Cell := ⟨.undefV, [], []⟩

/-- Global state: the heap of cells, the allocator, the per-derived-cell
current inner box of `flatMap` (the mutable `innerBox` closure variable),
the key stream with its cursor, and the log of user-observer invocations. -/
structure St where
  heap : Nat → Cell
  nextId : Nat
  inner : Nat → Option Nat
  rand : Nat → String
  ridx : Nat
  log : List (Nat × Val)

/-- Initial empty state over a given key stream. -/
def initSt (r : Nat → String) : St :=
  { heap := fun _ => emptyCell, nextId := 0, inner := fun _ => none,
    rand := r, ridx := 0, log := [] }

def getValue (s : St) (c : Nat) : Val := (s.heap c).value

def updCell (s : St) (c : Nat) (f : Cell → Cell) : St :=
  { s with heap := fun n => if n = c then f (s.heap n) else s.heap n }

/-- JS `Map.set`: replace in place when the key is present (keeping its
insertion position), append otherwise. -/
def mapSet (l : List (String × Obs)) (k : String) (o : Obs) :
    List (String × Obs) :=
  if l.any (fun p => p.1 == k) then
    l.map (fun p => if p.1 == k then (k, o) else p)
  else l ++ [(k, o)]

/-- JS `Map.delete`: remove the entry with the given key (a `Map` has at
most one). -/
def mapDelete (l : List (String × Obs)) (k : String) : List (String × Obs) :=
  l.filter (fun p => p.1 != k)

/-- Model of `subscribe` (`src/RBox.ts:195-199`): draw the next key from the random
stream, insert the observer, return the key. -/
def subscribe (s : St) (c : Nat) (o : Obs) : String × St :=
  let key := s.rand s.ridx
  (key,
    { updCell s c (fun cl => { cl with observers := mapSet cl.observers key o })
      with ridx := s.ridx + 1 })

/-- Model of `unsubscribe` (`src/RBox.ts:201-203`). -/
def unsubscribe (s : St) (c : Nat) (k : String) : St :=
  updCell s c (fun cl => { cl with observers := mapDelete cl.observers k })

/-- Model of `unsubscribeAll` (`src/RBox.ts:205-207`). -/
def unsubscribeAll (s : St) (c : Nat) : St :=
  updCell s c (fun cl => { cl with observers := [] })

def pushHandler (s : St) (c : Nat) (h : Handler) : St :=
  updCell s c (fun cl => { cl with detachHandlers := cl.detachHandlers ++ [h] })

def setCellValue (s : St) (c : Nat) (v : Val) : St :=
  updCell s c (fun cl => { cl with value := v })

def appendLog (s : St) (e : Nat × Val) : St := { s with log := s.log ++ [e] }

/-- Run one teardown handler (the closures pushed by `map`, `apply`,
`flatMap`).  `unsubInner d k` reads the current inner box of `d`, because
the source closure captures the mutable `innerBox` variable. -/
def runHandler (s : St) (h : Handler) : St :=
  match h with
  | .unsub c k => unsubscribe s c k
  | .unsub2 c1 k1 c2 k2 => unsubscribe (unsubscribe s c1 k1) c2 k2
  | .unsubInner d k =>
    match s.inner d with
    | some i => unsubscribe s i k
    | none => s

/-- Model of `detach` (`src/RBox.ts:209-212`): run every handler currently in the
list, in order, then empty the list. -/
def detach (s : St) (c : Nat) : St :=
  let s1 := (s.heap c).detachHandlers.foldl runHandler s
  updCell s1 c (fun cl => { cl with detachHandlers := [] })

/-- Model of `rbox(initialValue)` (`src/RBox.ts:116-119`): allocate a fresh cell
with the given value, empty registry and empty teardown list. -/
def pack (s : St) (v : Val) : Nat × St :=
  (s.nextId,
    { s with heap := fun n => if n = s.nextId then ⟨v, [], []⟩ else s.heap n,
             nextId := s.nextId + 1 })

/-- Evaluate `fn(value)` for a `flatMap` argument. -/
def mkInner (s : St) (fb : FnBox) (v : Val) : Nat × St :=
  match fb with
  | .packOf f => pack s (applyFn f v)
  | .constBox c => (c, s)

/-- Record the current inner box of the `flatMap` invocation that built
derived cell `d` (assignment to the mutable `innerBox` variable). -/
def setInner (s : St) (d i : Nat) : St :=
  { s with inner := fun n => if n = d then some i else s.inner n }

mutual

/-- Model of `setValue` (`src/RBox.ts:126-133`): store `computeNew` of the argument,
then notify every currently registered observer in insertion order.  The
fuel bounds the length of the synchronous notification cascade; `none`
means fuel ran out (the source would simply keep recursing). -/
def setValue (fuel : Nat) (s : St) (c : Nat) (v : Val) : Option St :=
  match fuel with
  | 0 => none
  | f + 1 =>
    let s1 := setCellValue s c (computeNew v (getValue s c))
    notify f s1 c (s1.heap c).observers

/-- The notification loop `observers.forEach((observer) => observer(value))`
(`src/RBox.ts:121-123`); each observer receives the cell value read at
its own invocation time, as the source closure does. -/
def notify (fuel : Nat) (s : St) (c : Nat) (l : List (String × Obs)) :
    Option St :=
  match fuel with
  | 0 => none
  | f + 1 =>
    match l with
    | [] => some s
    | (_, o) :: rest =>
      match runObs f s o (getValue s c) with
      | none => none
      | some s2 => notify f s2 c rest

/-- Invoke one observer closure with a value. -/
def runObs (fuel : Nat) (s : St) (o : Obs) (v : Val) : Option St :=
  match fuel with
  | 0 => none
  | f + 1 =>
    match o with
    | .user i => some (appendLog s (i, v))
    | .mapObs g d => setValue f s d (applyFn g v)
    | .fwd d => setValue f s d v
    | .applyObs fc ac d => setValue f s d (callVal (getValue s fc) (getValue s ac))
    | .outerObs fb d => updateInnerBox f s fb d v

/-- Model of `updateInnerBox` (`src/RBox.ts:149-159`): detach the previous inner
box, compute the new inner box, push its value into the derived cell,
re-subscribe the forwarder, record the new teardown handler. -/
def updateInnerBox (fuel : Nat) (s : St) (fb : FnBox) (d : Nat) (v : Val) :
    Option St :=
  match fuel with
  | 0 => none
  | f + 1 =>
    let s1 := match s.inner d with
              | some i => detach s i
              | none => s
    let p := mkInner s1 fb v
    let s3 := setInner p.2 d p.1
    match setValue f s3 d (getValue s3 p.1) with
    | none => none
    | some s4 =>
      let q := subscribe s4 p.1 (.fwd d)
      some (pushHandler q.2 d (.unsubInner d q.1))

end

/-- Model of `map` (`src/RBox.ts:135-143`): allocate `rbox(fn(value))`, subscribe
the forwarding observer on the source, push its teardown. -/
def map (s : St) (c : Nat) (f : Fn) : Nat × St :=
  let p := pack s (applyFn f (getValue s c))
  let q := subscribe p.2 c (.mapObs f p.1)
  (p.1, pushHandler q.2 p.1 (.unsub c q.1))

/-- Model of `apply` (`src/RBox.ts:174-193`): allocate the derived cell from both
current values, subscribe the shared `handleChange` on both sources, push
ONE teardown handler that unsubscribes from both. -/
def apply (s : St) (fc ac : Nat) : Nat × St :=
  let p := pack s (callVal (getValue s fc) (getValue s ac))
  let q1 := subscribe p.2 fc (.applyObs fc ac p.1)
  let q2 := subscribe q1.2 ac (.applyObs fc ac p.1)
  (p.1, pushHandler q2.2 p.1 (.unsub2 fc q1.1 ac q2.1))

/-- Model of `flatMap` (`src/RBox.ts:145-172`): build the initial inner box, the
derived cell, subscribe `updateInnerBox` on the outer source and the
forwarder on the inner box, pushing a teardown handler for each. -/
def flatMap (s : St) (o : Nat) (fb : FnBox) : Nat × St :=
  let pi := mkInner s fb (getValue s o)
  let pd := pack pi.2 (getValue pi.2 pi.1)
  let s1 := setInner pd.2 pd.1 pi.1
  let q1 := subscribe s1 o (.outerObs fb pd.1)
  let s2 := pushHandler q1.2 pd.1 (.unsub o q1.1)
  let q2 := subscribe s2 pi.1 (.fwd pd.1)
  (pd.1, pushHandler q2.2 pd.1 (.unsubInner pd.1 q2.1))

/-- The curried `set` helper (`src/RBox.ts:239-247`): the same
function-vs-value dispatch, both branches delegating to `setValue`. -/
def set (fuel : Nat) (s : St) (c : Nat) (v : Val) : Option St :=
  match v with
  | .fn f => setValue fuel s c (.fn f)
  | v => setValue fuel s c v

/-- A finite sequence of `setValue` calls, each on a chosen cell. -/
def runWrites (fuel : Nat) (s : St) : List (Nat × Val) → Option St
  | [] => some s
  | (c, v) :: rest =>
    match setValue fuel s c v with
    | none => none
    | some s2 => runWrites fuel s2 rest

/-- A registry consisting solely of user observers (test callbacks),
given as key/id pairs. -/
def usersOf (us : List (String × Nat)) : List (String × Obs) :=
  us.map (fun p => (p.1, Obs.user p.2))

/-- Scenario for the `map` arm of detach-freezing: `c = pack v0` (id 0),
`d = c.map f` (id 1), a user observer subscribed directly to `d`, then
`d.detach()`. -/
def mapDetachSc (r : Nat → String) (v0 : Val) (f : Fn) (u : Nat) : St :=
  let p := pack (initSt r) v0
  let m := map p.2 p.1 f
  let q := subscribe m.2 m.1 (Obs.user u)
  detach q.2 m.1

/-- Scenario for the `apply` arm of detach-freezing: `fc = pack vf` (id 0),
`ac = pack va` (id 1), `d = fc.apply(ac)` (id 2), a user observer
subscribed directly to `d`, then `d.detach()`. -/
def applyDetachSc (r : Nat → String) (vf va : Val) (u : Nat) : St :=
  let p1 := pack (initSt r) vf
  let p2 := pack p1.2 va
  let ap := apply p2.2 0 1
  let q := subscribe ap.2 ap.1 (Obs.user u)
  detach q.2 ap.1

/-- Scenario for the `flatMap` arm of detach-freezing: `o = pack v0`
(id 0), `d = o.flatMap(x => pack (f x))` (inner box id 1, derived id 2), a
user observer subscribed directly to `d`, then `d.detach()`. -/
def flatMapDetachSc (r : Nat → String) (v0 : Val) (f : Fn) (u : Nat) : St :=
  let p := pack (initSt r) v0
  let fm := flatMap p.2 p.1 (FnBox.packOf f)
  let q := subscribe fm.2 fm.1 (Obs.user u)
  detach q.2 fm.1

/-- Scenario for map-tracks-source: `c = pack v0` (id 0), `d = c.map f`
(id 1), nothing detached. -/
def mapTrackSc (r : Nat → String) (v0 : Val) (f : Fn) : St :=
  let p := pack (initSt r) v0
  (map p.2 p.1 f).2

/-- An injective concrete key stream standing for a collision-free run of
`Math.random().toString(36).substr(2, 9)`. -/
def decKeys : Nat → String := fun n => toString n

/-- A colliding key stream: a run in which `Math.random` yields the same
string on every call. -/
def oneKey : Nat → String := fun _ => "4fzyo82mv"

/-- C1 run, step 0: `o = pack 0` (id 0),
`derived = o.flatMap(x => pack (x * 10))` (initial inner box id 1,
derived id 2). -/
def c1Setup : Nat × St :=
  let p := pack (initSt decKeys) (Val.num 0)
  flatMap p.2 p.1 (FnBox.packOf (Fn.mulK 10))

/-- C1 run after `o.setValue(1)`. -/
def c1AfterOuter : Option St := setValue 9 c1Setup.2 0 (Val.num 1)

/-- C1 run after the subsequent `setValue(99)` on the ORIGINAL inner cell
(id 1) produced by `fn(0)`. -/
def c1AfterInner0 : Option St :=
  c1AfterOuter.bind (fun s => setValue 9 s 1 (Val.num 99))

/-- C3 run: one cell (id 0) and two `subscribe` calls under the colliding
key stream. -/
def c3Sub1 : String × St :=
  subscribe (pack (initSt oneKey) (Val.num 0)).2 0 (Obs.user 1)

def c3Sub2 : String × St := subscribe c3Sub1.2 0 (Obs.user 2)

/-- C5 counterexample run: `c = pack 0` (id 0),
`d = c.map (x => (y => x))` (id 1), then `c.setValue(1)`.  The mapped
value is a function, so the forwarding `derived.setValue` treats it as an
updater. -/
def c5Run : Option St :=
  setValue 9 (mapTrackSc decKeys (Val.num 0) Fn.mkConstF) 0 (Val.num 1)

/-- C7 counterexample run: `fc = pack (x => x + 1)` (id 0),
`ac = pack 2` (id 1), `d = fc.apply(ac)` (id 2). -/
def c7Run : Nat × St :=
  let p1 := pack (initSt decKeys) (Val.fn (Fn.addK 1))
  let p2 := pack p1.2 (Val.num 2)
  apply p2.2 0 1

/-- A concrete cell state with two user observers, for witnesses: cell 0
holds `5`, observers `user 1` then `user 2` under keys `"0"`, `"1"`. -/
def twoUserSt : St :=
  (subscribe (subscribe (pack (initSt decKeys) (Val.num 5)).2 0
    (Obs.user 1)).2 0 (Obs.user 2)).2

/-- The state reached by the C4 map-arm witness run: one write of `4` to
the source after detach. -/
def c4wMap : St :=
  (runWrites 9 (mapDetachSc decKeys (Val.num 2) (Fn.mulK 3) 7)
    [(0, Val.num 4)]).getD (initSt decKeys)

/-- The state reached by the C4 apply-arm witness run: one write to each
source after detach. -/
def c4wApply : St :=
  (runWrites 9 (applyDetachSc decKeys (Val.fn (Fn.addK 1)) (Val.num 2) 7)
    [(0, Val.fn (Fn.addK 9)), (1, Val.num 5)]).getD (initSt decKeys)

/-- The state reached by the C4 flatMap-arm witness run: one write to the
outer source and one to the inner box after detach. -/
def c4wFlatMap : St :=
  (runWrites 9 (flatMapDetachSc decKeys (Val.num 0) (Fn.mulK 10) 7)
    [(0, Val.num 1), (1, Val.num 99)]).getD (initSt decKeys)

/-- The state reached by the C5 witness run: two writes to the source of
`d = c.map (x => x * 3)`. -/
def c5wSt : St :=
  (runWrites 9 (mapTrackSc decKeys (Val.num 2) (Fn.mulK 3))
    [(0, Val.num 4), (0, Val.fn (Fn.addK 2))]).getD (initSt decKeys)

/-- The state reached by the C8 witness run: unsubscribe the first of the
two user observers, then write `7`. -/
def c8wSt : St :=
  (setValue 9 (unsubscribe twoUserSt 0 "0") 0 (Val.num 7)).getD
    (initSt decKeys)

/-! Projection lemmas for the state operations. -/

@[simp] lemma heap_updCell (s : St) (c : Nat) (g : Cell → Cell) (n : Nat) :
    (updCell s c g).heap n = if n = c then g (s.heap n) else s.heap n := rfl

@[simp] lemma log_updCell (s : St) (c : Nat) (g : Cell → Cell) :
    (updCell s c g).log = s.log := rfl

@[simp] lemma inner_updCell (s : St) (c : Nat) (g : Cell → Cell) :
    (updCell s c g).inner = s.inner := rfl

@[simp] lemma rand_updCell (s : St) (c : Nat) (g : Cell → Cell) :
    (updCell s c g).rand = s.rand := rfl

@[simp] lemma ridx_updCell (s : St) (c : Nat) (g : Cell → Cell) :
    (updCell s c g).ridx = s.ridx := rfl

@[simp] lemma nextId_updCell (s : St) (c : Nat) (g : Cell → Cell) :
    (updCell s c g).nextId = s.nextId := rfl

@[simp] lemma heap_appendLog (s : St) (e : Nat × Val) :
    (appendLog s e).heap = s.heap := rfl

@[simp] lemma log_appendLog (s : St) (e : Nat × Val) :
    (appendLog s e).log = s.log ++ [e] := rfl

@[simp] lemma getValue_appendLog (s : St) (e : Nat × Val) (c : Nat) :
    getValue (appendLog s e) c = getValue s c := rfl

/-- Updating a cell to itself is the identity on states. -/
lemma updCell_eq_self (s : St) (c : Nat) (g : Cell → Cell)
    (h : g (s.heap c) = s.heap c) : updCell s c g = s := by
  show ({ s with heap := _ } : St) = s
  have hh : (fun n => if n = c then g (s.heap n) else s.heap n) = s.heap := by
    funext n
    by_cases hn : n = c
    · subst hn; simp [h]
    · simp [hn]
  rw [hh]

@[simp] lemma observers_setCellValue (s : St) (c : Nat) (v : Val) (n : Nat) :
    ((setCellValue s c v).heap n).observers = (s.heap n).observers := by
  simp only [setCellValue, heap_updCell]
  split <;> rfl

@[simp] lemma detachHandlers_setCellValue (s : St) (c : Nat) (v : Val) (n : Nat) :
    ((setCellValue s c v).heap n).detachHandlers = (s.heap n).detachHandlers := by
  simp only [setCellValue, heap_updCell]
  split <;> rfl

@[simp] lemma value_setCellValue_self (s : St) (c : Nat) (v : Val) :
    getValue (setCellValue s c v) c = v := by
  simp [setCellValue, getValue, updCell]

lemma value_setCellValue_other (s : St) (c : Nat) (v : Val) (n : Nat)
    (h : n ≠ c) : getValue (setCellValue s c v) n = getValue s n := by
  simp [setCellValue, getValue, updCell, h]

lemma heap_setCellValue_other (s : St) (c : Nat) (v : Val) (n : Nat)
    (h : n ≠ c) : (setCellValue s c v).heap n = s.heap n := by
  simp [setCellValue, updCell, h]

@[simp] lemma log_setCellValue (s : St) (c : Nat) (v : Val) :
    (setCellValue s c v).log = s.log := rfl

@[simp] lemma value_unsubscribe (s : St) (c : Nat) (k : String) (n : Nat) :
    getValue (unsubscribe s c k) n = getValue s n := by
  simp only [unsubscribe, getValue, heap_updCell]
  split <;> rfl

@[simp] lemma detachHandlers_unsubscribe (s : St) (c : Nat) (k : String) (n : Nat) :
    ((unsubscribe s c k).heap n).detachHandlers = (s.heap n).detachHandlers := by
  simp only [unsubscribe, heap_updCell]
  split <;> rfl

@[simp] lemma inner_unsubscribe (s : St) (c : Nat) (k : String) :
    (unsubscribe s c k).inner = s.inner := rfl

@[simp] lemma log_unsubscribe (s : St) (c : Nat) (k : String) :
    (unsubscribe s c k).log = s.log := rfl

/-- Teardown handlers only remove subscriptions: they never change values,
teardown lists, the inner-box table or the log. -/
lemma runHandler_effects (s : St) (h : Handler) :
    (∀ n, ((runHandler s h).heap n).detachHandlers = (s.heap n).detachHandlers)
    ∧ (∀ n, getValue (runHandler s h) n = getValue s n)
    ∧ (runHandler s h).inner = s.inner
    ∧ (runHandler s h).log = s.log := by
  cases h with
  | unsub c k => simp [runHandler]
  | unsub2 c1 k1 c2 k2 => simp [runHandler]
  | unsubInner d k =>
    simp only [runHandler]
    cases s.inner d <;> simp

/-- Folding teardown handlers preserves every teardown list. -/
lemma foldl_runHandler_detachHandlers (hs : List Handler) :
    ∀ (s : St) (n : Nat),
      ((hs.foldl runHandler s).heap n).detachHandlers
        = (s.heap n).detachHandlers := by
  induction hs with
  | nil => intro s n; rfl
  | cons h rest ih =>
    intro s n
    rw [List.foldl_cons, ih]
    exact (runHandler_effects s h).1 n

/-- A non-function argument of `setValue` is stored as is. -/
lemma computeNew_of_not_fn (v cur : Val) (hv : v.isFn = false) :
    computeNew v cur = v := by
  cases v <;> simp_all [computeNew, Val.isFn]

/-- When the mapping function never produces a function value, the
forwarded `setValue` stores exactly the mapped value. -/
lemma computeNew_applyFn (f : Fn) (hf : ∀ v, (applyFn f v).isFn = false)
    (x cur : Val) : computeNew (applyFn f x) cur = applyFn f x :=
  computeNew_of_not_fn _ _ (hf x)

/-- Notifying a registry of user observers logs one entry per observer, in
registry order, each carrying the current value of the cell. -/
lemma notify_users (c : Nat) (us : List (String × Nat)) :
    ∀ (fuel : Nat) (s : St), 2 * us.length < fuel →
      notify fuel s c (usersOf us)
        = some { s with log := s.log ++ us.map (fun p => (p.2, getValue s c)) } := by
  induction us with
  | nil =>
    intro fuel s hf
    match fuel with
    | f + 1 => simp [notify, usersOf]
  | cons p rest ih =>
    intro fuel s hf
    match fuel with
    | (f2 + 1) + 1 =>
      have hrest : 2 * rest.length < f2 + 1 := by
        simp only [List.length_cons] at hf; omega
      have step : notify ((f2 + 1) + 1) s c (usersOf (p :: rest))
          = notify (f2 + 1) (appendLog s (p.2, getValue s c)) c (usersOf rest) := rfl
      rw [step, ih (f2 + 1) _ hrest]
      simp [appendLog, getValue]

/-- A `setValue` on a cell whose registry holds only user observers: the new
value is stored and every observer is invoked exactly once with it, in
registry insertion order, before the call returns. -/
lemma setValue_users (s : St) (c : Nat) (us : List (String × Nat)) (v : Val)
    (fuel : Nat) (hobs : (s.heap c).observers = usersOf us)
    (hf : 2 * us.length + 1 < fuel) :
    setValue fuel s c v
      = some { setCellValue s c (computeNew v (getValue s c)) with
               log := s.log ++ us.map
                 (fun p => (p.2, computeNew v (getValue s c))) } := by
  match fuel with
  | f + 1 =>
    simp only [setValue]
    rw [show ((setCellValue s c (computeNew v (getValue s c))).heap c).observers
          = usersOf us by rw [observers_setCellValue, hobs]]
    rw [notify_users c us f _ (by omega)]
    simp

/-- A `setValue` on a cell with an empty registry just stores the value. -/
lemma setValue_empty_obs (fuel : Nat) (s : St) (c : Nat) (v : Val) (s2 : St)
    (hobs : (s.heap c).observers = []) (h : setValue fuel s c v = some s2) :
    s2 = setCellValue s c (computeNew v (getValue s c)) := by
  match fuel with
  | 0 => simp [setValue] at h
  | f + 1 =>
    simp only [setValue] at h
    rw [show ((setCellValue s c (computeNew v (getValue s c))).heap c).observers
          = [] by rw [observers_setCellValue, hobs]] at h
    match f with
    | 0 => simp [notify] at h
    | f2 + 1 =>
      simp only [notify] at h
      exact (Option.some.inj h).symm

/-- Writes to source cells whose registries are empty never touch any
other cell and never change any registry. -/
lemma runWrites_frozen (d : Nat) (ws : List (Nat × Val)) :
    ∀ (s s2 : St) (fuel : Nat),
      (∀ p ∈ ws, p.1 ≠ d) →
      (∀ p ∈ ws, (s.heap p.1).observers = []) →
      runWrites fuel s ws = some s2 →
      s2.heap d = s.heap d
        ∧ (∀ n, (s2.heap n).observers = (s.heap n).observers) := by
  induction ws with
  | nil =>
    intro s s2 fuel _ _ h
    simp only [runWrites] at h
    rw [← Option.some.inj h]
    exact ⟨rfl, fun _ => rfl⟩
  | cons p rest ih =>
    intro s s2 fuel hd hobs h
    simp only [runWrites] at h
    match hsv : setValue fuel s p.1 p.2 with
    | none => rw [hsv] at h; simp at h
    | some t =>
      rw [hsv] at h
      have ht : t = setCellValue s p.1 (computeNew p.2 (getValue s p.1)) :=
        setValue_empty_obs fuel s p.1 p.2 t (hobs p (by simp)) hsv
      have hrec := ih t s2 fuel
        (fun q hq => hd q (by simp [hq]))
        (fun q hq => by
          rw [ht, observers_setCellValue]; exact hobs q (by simp [hq]))
        h
      refine ⟨?_, fun n => ?_⟩
      · rw [hrec.1, ht, heap_setCellValue_other s p.1 _ d
          (fun hh => hd p (by simp) hh.symm)]
      · rw [hrec.2 n, ht, observers_setCellValue]

/-- A cell whose teardown list is already empty is unchanged by clearing
it. -/
lemma cell_clear_dh_self (cl : Cell) (h : cl.detachHandlers = []) :
    { cl with detachHandlers := [] } = cl := by
  cases cl; simp_all

/-- After `detach`, the teardown list is empty. -/
lemma detachHandlers_detach_self (s : St) (c : Nat) :
    ((detach s c).heap c).detachHandlers = [] := by
  simp [detach]

/-- A second `detach` folds over an empty teardown list and changes
nothing. -/
lemma detach_detach (s : St) (c : Nat) : detach (detach s c) c = detach s c := by
  have h0 := detachHandlers_detach_self s c
  show updCell (((detach s c).heap c).detachHandlers.foldl runHandler (detach s c)) c
      (fun cl => { cl with detachHandlers := [] }) = detach s c
  rw [h0, List.foldl_nil]
  exact updCell_eq_self _ _ _ (cell_clear_dh_self _ h0)

/-- Deleting an absent key leaves the registry untouched. -/
lemma mapDelete_not_mem (l : List (String × Obs)) (k : String)
    (h : ∀ p ∈ l, p.1 ≠ k) : mapDelete l k = l := by
  rw [mapDelete, List.filter_eq_self]
  intro p hp
  simpa using h p hp

/-- An `unsubscribe` with a key matching no entry is a no-op on the whole
state. -/
lemma unsubscribe_not_mem (s : St) (c : Nat) (k : String)
    (h : ∀ p ∈ (s.heap c).observers, p.1 ≠ k) : unsubscribe s c k = s := by
  apply updCell_eq_self
  rw [mapDelete_not_mem _ _ h]

/-- Deleting key `k` from a registry of user observers surrounding the
single entry under `k` removes exactly that entry. -/
lemma mapDelete_middle (us1 us2 : List (String × Nat)) (k : String) (i : Nat)
    (h1 : ∀ p ∈ us1, p.1 ≠ k) (h2 : ∀ p ∈ us2, p.1 ≠ k) :
    mapDelete (usersOf us1 ++ (k, Obs.user i) :: usersOf us2) k
      = usersOf (us1 ++ us2) := by
  have e1 : mapDelete (usersOf us1) k = usersOf us1 := by
    apply mapDelete_not_mem
    intro p hp
    simp only [usersOf, List.mem_map] at hp
    obtain ⟨q, hq, rfl⟩ := hp
    exact h1 q hq
  have e2 : mapDelete (usersOf us2) k = usersOf us2 := by
    apply mapDelete_not_mem
    intro p hp
    simp only [usersOf, List.mem_map] at hp
    obtain ⟨q, hq, rfl⟩ := hp
    exact h2 q hq
  simp only [mapDelete, List.filter_append, List.filter_cons] at *
  simp only [bne_self_eq_false, usersOf, List.map_append] at *
  rw [e1, e2]
  simp

/-- State after `map` construction: the source (id 0) carries the
forwarding observer, the derived cell (id 1) holds the mapped value, an
empty registry and the teardown entry for the source subscription. -/
lemma mapTrackSc_spec (r : Nat → String) (v0 : Val) (f : Fn) :
    (mapTrackSc r v0 f).heap 0 = ⟨v0, [(r 0, Obs.mapObs f 1)], []⟩
    ∧ (mapTrackSc r v0 f).heap 1
        = ⟨applyFn f v0, [], [Handler.unsub 0 (r 0)]⟩ := by
  simp [mapTrackSc, pack, map, subscribe, pushHandler, setCellValue, updCell,
    initSt, emptyCell, mapSet, getValue]

/-- State after the detach-freezing scenarios: every source registry is
empty, the derived cell keeps its value and its own user observer. -/
lemma mapDetachSc_spec (r : Nat → String) (v0 : Val) (f : Fn) (u : Nat) :
    (mapDetachSc r v0 f u).heap 0 = ⟨v0, [], []⟩
    ∧ (mapDetachSc r v0 f u).heap 1 = ⟨applyFn f v0, [(r 1, Obs.user u)], []⟩ := by
  simp [mapDetachSc, pack, map, subscribe, detach, pushHandler, unsubscribe,
    setCellValue, updCell, initSt, emptyCell, mapSet, mapDelete, runHandler,
    getValue]

lemma applyDetachSc_spec (r : Nat → String) (vf va : Val) (u : Nat) :
    (applyDetachSc r vf va u).heap 0 = ⟨vf, [], []⟩
    ∧ (applyDetachSc r vf va u).heap 1 = ⟨va, [], []⟩
    ∧ (applyDetachSc r vf va u).heap 2
        = ⟨callVal vf va, [(r 2, Obs.user u)], []⟩ := by
  simp [applyDetachSc, pack, apply, subscribe, detach, pushHandler, unsubscribe,
    setCellValue, updCell, initSt, emptyCell, mapSet, mapDelete, runHandler,
    getValue]

lemma flatMapDetachSc_spec (r : Nat → String) (v0 : Val) (f : Fn) (u : Nat) :
    (flatMapDetachSc r v0 f u).heap 0 = ⟨v0, [], []⟩
    ∧ (flatMapDetachSc r v0 f u).heap 1 = ⟨applyFn f v0, [], []⟩
    ∧ (flatMapDetachSc r v0 f u).heap 2
        = ⟨applyFn f v0, [(r 2, Obs.user u)], []⟩ := by
  simp [flatMapDetachSc, pack, flatMap, mkInner, setInner, subscribe, detach,
    pushHandler, unsubscribe, setCellValue, updCell, initSt, emptyCell, mapSet,
    mapDelete, runHandler, getValue]

/-- One `setValue` on the source of a live `map` derivation: the source
stores the new value, the forwarding observer then stores the mapped
value in the derived cell (given that the mapping function never produces
a function value, so the forwarded `setValue` is not treated as an
updater). -/
lemma setValue_mapPair (s : St) (c d : Nat) (k : String) (f : Fn) (w : Val)
    (fuel : Nat) (s2 : St) (hcd : c ≠ d)
    (hc : (s.heap c).observers = [(k, Obs.mapObs f d)])
    (hd : (s.heap d).observers = [])
    (hf : ∀ v, (applyFn f v).isFn = false)
    (h : setValue fuel s c w = some s2) :
    s2 = setCellValue (setCellValue s c (computeNew w (getValue s c))) d
           (applyFn f (computeNew w (getValue s c))) := by
  match fuel with
  | 0 | 1 | 2 | 3 | 4 =>
    simp [setValue, notify, runObs, hc, hd] at h
  | F + 5 =>
    simp [setValue, notify, runObs, hc, hd,
      value_setCellValue_other _ _ _ _ (Ne.symm hcd),
      computeNew_applyFn f hf] at h
    exact h.symm

/-- The `map` synchronization invariant is preserved by any sequence of
writes to the source. -/
lemma runWrites_mapTrack (c d : Nat) (k : String) (f : Fn) (hcd : c ≠ d)
    (hf : ∀ v, (applyFn f v).isFn = false) (ws : List Val) :
    ∀ (s s2 : St) (fuel : Nat),
      (s.heap c).observers = [(k, Obs.mapObs f d)] →
      (s.heap d).observers = [] →
      getValue s d = applyFn f (getValue s c) →
      runWrites fuel s (ws.map (fun v => (c, v))) = some s2 →
      (s2.heap c).observers = [(k, Obs.mapObs f d)]
      ∧ (s2.heap d).observers = []
      ∧ getValue s2 d = applyFn f (getValue s2 c) := by
  induction ws with
  | nil =>
    intro s s2 fuel hc hd hsync h
    simp only [List.map_nil, runWrites] at h
    rw [← Option.some.inj h]
    exact ⟨hc, hd, hsync⟩
  | cons w rest ih =>
    intro s s2 fuel hc hd _ h
    simp only [List.map_cons, runWrites] at h
    match hsv : setValue fuel s c w with
    | none => rw [hsv] at h; simp at h
    | some t =>
      rw [hsv] at h
      have ht := setValue_mapPair s c d k f w fuel t hcd hc hd hf hsv
      apply ih t s2 fuel
      · rw [ht]
        simp [hc]
      · rw [ht]
        simp [hd]
      · rw [ht, value_setCellValue_self,
          value_setCellValue_other _ _ _ _ hcd, value_setCellValue_self]
      · exact h

/-- A `subscribe` never changes a teardown list. -/
lemma detachHandlers_subscribe (s : St) (a : Nat) (o : Obs) (n : Nat) :
    ((subscribe s a o).2.heap n).detachHandlers = (s.heap n).detachHandlers := by
  simp only [subscribe, heap_updCell]
  split <;> rfl

@[simp] lemma detachHandlers_pushHandler_self (s : St) (c : Nat) (h : Handler) :
    ((pushHandler s c h).heap c).detachHandlers
      = (s.heap c).detachHandlers ++ [h] := by
  simp [pushHandler, updCell]

@[simp] lemma rand_subscribe (s : St) (a : Nat) (o : Obs) :
    (subscribe s a o).2.rand = s.rand := rfl

@[simp] lemma ridx_subscribe (s : St) (a : Nat) (o : Obs) :
    (subscribe s a o).2.ridx = s.ridx + 1 := rfl

@[simp] lemma detachHandlers_pack_self (s : St) (v : Val) :
    (((pack s v).2).heap (pack s v).1).detachHandlers = [] := by
  simp [pack]

/-! Claim theorems. -/

/-- C1: the flatMap inner-switch scenario of the claim, evaluated on the
code.  With `o = pack 0` and `fn = x => pack (x * 10)`,
`derived = o.flatMap fn` (cell 2) starts at `0` and holds `10` after
`o.setValue 1` — but a subsequent `setValue 99` on the ORIGINAL inner
cell `fn 0` (cell 1) drives `derived` to `99` instead of leaving it at
`10`: `updateInnerBox` calls `innerBox.detach()`, which runs the inner
own (empty) teardown list of the inner box and does NOT remove the forwarding
observer that `flatMap` registered on it, so the original inner cell
keeps forwarding into `derived`. -/
theorem c1_flatMap_switch_failure :
    getValue c1Setup.2 2 = Val.num 0
    ∧ c1AfterOuter.map (fun s => getValue s 2) = some (Val.num 10)
    ∧ c1AfterInner0.map (fun s => getValue s 2) = some (Val.num 99)
    ∧ c1AfterInner0.map (fun s => getValue s 2) ≠ some (Val.num 10) := by
  refine ⟨rfl, rfl, rfl, ?_⟩
  decide

/-- C2: notify-on-write.  For any cell whose registry holds the user
observers `us` (arbitrary, in insertion order), `setValue` stores the new
value — `v` itself, or `f prev` for the updater form `Val.fn f`, both
given by `computeNew` — and then invokes each currently registered
observer exactly once with that stored value, in registry insertion
order, before returning: the event log is extended by exactly one entry
per registered observer, in registry order, all carrying the stored
value. -/
theorem c2_notify_on_write (s : St) (c : Nat) (us : List (String × Nat))
    (v : Val) (fuel : Nat) (hobs : (s.heap c).observers = usersOf us)
    (hfuel : 2 * us.length + 1 < fuel) :
    setValue fuel s c v
      = some { setCellValue s c (computeNew v (getValue s c)) with
               log := s.log ++ us.map
                 (fun p => (p.2, computeNew v (getValue s c))) } :=
  setValue_users s c us v fuel hobs hfuel

theorem c2_witness :
    (twoUserSt.heap 0).observers = usersOf [("0", 1), ("1", 2)]
    ∧ (setValue 9 twoUserSt 0 (Val.num 7)).map St.log
        = some [(1, Val.num 7), (2, Val.num 7)] := by
  refine ⟨by decide, ?_⟩
  rw [c2_notify_on_write twoUserSt 0 [("0", 1), ("1", 2)] (Val.num 7) 9
    (by decide) (by decide)]
  decide

/-- C3: subscription keys come from `Math.random().toString(36).substr(2, 9)`,
which can yield the same string twice.  In such a run (stream `oneKey`),
two `subscribe` calls on the same cell return the SAME key, and the
second observer silently replaces the first in the registry
(`Map.set` overwrites) — refuting the claim that every `subscribe` call
returns a fresh, never-reused key. -/
theorem c3_key_collision :
    c3Sub1.1 = c3Sub2.1
    ∧ (c3Sub2.2.heap 0).observers = [("4fzyo82mv", Obs.user 2)]
    ∧ (c3Sub2.2.heap 0).observers.length = 1 := by
  decide

/-- C6: detach is idempotent: the first `detach` runs the recorded
teardown actions and leaves the teardown list empty, so a second
`detach` on the same cell folds over an empty list — running no teardown
action — and the state after the second call equals the state after the
first (and no error can arise: all the operations involved are total). -/
theorem c6_detach_idempotent (s : St) (c : Nat) :
    ((detach s c).heap c).detachHandlers = []
    ∧ detach (detach s c) c = detach s c :=
  ⟨detachHandlers_detach_self s c, detach_detach s c⟩

/-- C4: detach freezes the derived value.  For each of the three
derivation operators (`map`, `apply`, `flatMap`), after the derived
cell has been detached, any finite sequence of writes to its source cell(s)
(the `map` source; both `apply` sources; the `flatMap` outer source and
inner box) completes leaving the value of the derived cell at what it was
when detached, while the user observer subscribed directly to the
derived cell remains registered. -/
theorem c4_detach_freezes (r : Nat → String) :
    (∀ (v0 : Val) (f : Fn) (u : Nat) (ws : List Val) (fuel : Nat) (s2 : St),
      runWrites fuel (mapDetachSc r v0 f u) (ws.map (fun v => (0, v))) = some s2 →
      getValue s2 1 = applyFn f v0
      ∧ (s2.heap 1).observers = [(r 1, Obs.user u)])
    ∧ (∀ (vf va : Val) (u : Nat) (ws : List (Bool × Val)) (fuel : Nat) (s2 : St),
      runWrites fuel (applyDetachSc r vf va u)
          (ws.map (fun p => (cond p.1 0 1, p.2))) = some s2 →
      getValue s2 2 = callVal vf va
      ∧ (s2.heap 2).observers = [(r 2, Obs.user u)])
    ∧ (∀ (v0 : Val) (f : Fn) (u : Nat) (ws : List (Bool × Val)) (fuel : Nat) (s2 : St),
      runWrites fuel (flatMapDetachSc r v0 f u)
          (ws.map (fun p => (cond p.1 0 1, p.2))) = some s2 →
      getValue s2 2 = applyFn f v0
      ∧ (s2.heap 2).observers = [(r 2, Obs.user u)]) := by
  refine ⟨?_, ?_, ?_⟩
  · intro v0 f u ws fuel s2 h
    have hspec := mapDetachSc_spec r v0 f u
    have hfz := runWrites_frozen 1 (ws.map (fun v => (0, v)))
      (mapDetachSc r v0 f u) s2 fuel
      (by rintro p hp; simp only [List.mem_map] at hp
          obtain ⟨q, _, rfl⟩ := hp; simp)
      (by rintro p hp; simp only [List.mem_map] at hp
          obtain ⟨q, _, rfl⟩ := hp; rw [hspec.1])
      h
    exact ⟨by rw [getValue, hfz.1, hspec.2], by rw [hfz.2 1, hspec.2]⟩
  · intro vf va u ws fuel s2 h
    have hspec := applyDetachSc_spec r vf va u
    have hfz := runWrites_frozen 2 (ws.map (fun p => (cond p.1 0 1, p.2)))
      (applyDetachSc r vf va u) s2 fuel
      (by rintro p hp; simp only [List.mem_map] at hp
          obtain ⟨q, _, rfl⟩ := hp; cases q.1 <;> simp)
      (by rintro p hp; simp only [List.mem_map] at hp
          obtain ⟨q, _, rfl⟩ := hp
          cases q.1
          · show ((applyDetachSc r vf va u).heap 1).observers = []
            rw [hspec.2.1]
          · show ((applyDetachSc r vf va u).heap 0).observers = []
            rw [hspec.1])
      h
    exact ⟨by rw [getValue, hfz.1, hspec.2.2], by rw [hfz.2 2, hspec.2.2]⟩
  · intro v0 f u ws fuel s2 h
    have hspec := flatMapDetachSc_spec r v0 f u
    have hfz := runWrites_frozen 2 (ws.map (fun p => (cond p.1 0 1, p.2)))
      (flatMapDetachSc r v0 f u) s2 fuel
      (by rintro p hp; simp only [List.mem_map] at hp
          obtain ⟨q, _, rfl⟩ := hp; cases q.1 <;> simp)
      (by rintro p hp; simp only [List.mem_map] at hp
          obtain ⟨q, _, rfl⟩ := hp
          cases q.1
          · show ((flatMapDetachSc r v0 f u).heap 1).observers = []
            rw [hspec.2.1]
          · show ((flatMapDetachSc r v0 f u).heap 0).observers = []
            rw [hspec.1])
      h
    exact ⟨by rw [getValue, hfz.1, hspec.2.2], by rw [hfz.2 2, hspec.2.2]⟩

theorem c4_witness :
    runWrites 9 (mapDetachSc decKeys (Val.num 2) (Fn.mulK 3) 7)
        [(0, Val.num 4)] = some c4wMap
    ∧ getValue c4wMap 1 = Val.num 6
    ∧ (c4wMap.heap 1).observers = [("1", Obs.user 7)]
    ∧ runWrites 9 (applyDetachSc decKeys (Val.fn (Fn.addK 1)) (Val.num 2) 7)
        [(0, Val.fn (Fn.addK 9)), (1, Val.num 5)] = some c4wApply
    ∧ getValue c4wApply 2 = Val.num 3
    ∧ runWrites 9 (flatMapDetachSc decKeys (Val.num 0) (Fn.mulK 10) 7)
        [(0, Val.num 1), (1, Val.num 99)] = some c4wFlatMap
    ∧ getValue c4wFlatMap 2 = Val.num 0 := by
  have h1 := (c4_detach_freezes decKeys).1 (Val.num 2) (Fn.mulK 3) 7
    [Val.num 4] 9 c4wMap rfl
  have h2 := (c4_detach_freezes decKeys).2.1 (Val.fn (Fn.addK 1)) (Val.num 2) 7
    [(true, Val.fn (Fn.addK 9)), (false, Val.num 5)] 9 c4wApply rfl
  have h3 := (c4_detach_freezes decKeys).2.2 (Val.num 0) (Fn.mulK 10) 7
    [(true, Val.num 1), (false, Val.num 99)] 9 c4wFlatMap rfl
  exact ⟨rfl, h1.1, h1.2, rfl, h2.1, rfl, h3.1⟩

/-- C5 counterexample: for the function-returning mapper
`f = x => (y => x)` (`Fn.mkConstF`) the claimed equation fails after one
write: the forwarded value `f 1` is a function, so the derived
`setValue` on the derived cell treats it as an updater and stores `f 1 (prev) = 1`, while
`f (c.getValue())` is the function `y => 1`. -/
theorem c5_counterexample :
    c5Run.map (fun s => getValue s 1) = some (Val.num 1)
    ∧ c5Run.map (fun s => applyFn Fn.mkConstF (getValue s 0))
        = some (Val.fn (Fn.constV (Val.num 1)))
    ∧ c5Run.map (fun s => getValue s 1)
        ≠ c5Run.map (fun s => applyFn Fn.mkConstF (getValue s 0)) := by
  decide

/-- C5 amended: map tracks its source for every mapping function `f` that
never produces a function value (so the forwarded write is not diverted
into the updater branch of `setValue`; writes to the source may still use
either form): at creation time and after every write of any finite
sequence of writes to the source, `derived.getValue = f (c.getValue)`. -/
theorem c5_map_tracks_source (r : Nat → String) (v0 : Val) (f : Fn)
    (hf : ∀ v, (applyFn f v).isFn = false) (ws : List Val) (fuel : Nat)
    (s2 : St)
    (h : runWrites fuel (mapTrackSc r v0 f) (ws.map (fun v => (0, v)))
          = some s2) :
    getValue (mapTrackSc r v0 f) 1 = applyFn f (getValue (mapTrackSc r v0 f) 0)
    ∧ getValue s2 1 = applyFn f (getValue s2 0) := by
  have hspec := mapTrackSc_spec r v0 f
  constructor
  · rw [getValue, getValue, hspec.1, hspec.2]
  · exact (runWrites_mapTrack 0 1 (r 0) f (by decide) hf ws
      (mapTrackSc r v0 f) s2 fuel
      (by rw [hspec.1]) (by rw [hspec.2])
      (by rw [getValue, getValue, hspec.1, hspec.2]) h).2.2

theorem c5_witness :
    (∀ v, (applyFn (Fn.mulK 3) v).isFn = false)
    ∧ runWrites 9 (mapTrackSc decKeys (Val.num 2) (Fn.mulK 3))
        [(0, Val.num 4), (0, Val.fn (Fn.addK 2))] = some c5wSt
    ∧ getValue c5wSt 1 = applyFn (Fn.mulK 3) (getValue c5wSt 0)
    ∧ getValue c5wSt 0 = Val.num 6
    ∧ getValue c5wSt 1 = Val.num 18 :=
  ⟨fun v => by cases v <;> rfl, rfl,
    (c5_map_tracks_source decKeys (Val.num 2) (Fn.mulK 3)
      (fun v => by cases v <;> rfl) [Val.num 4, Val.fn (Fn.addK 2)] 9 c5wSt
      rfl).2,
    by decide, by decide⟩

/-- C7 counterexample: `apply` pushes a SINGLE teardown entry (one
closure unsubscribing from both sources), not two: with
`fc = pack (x => x + 1)`, `ac = pack 2`, the teardown
list of the derived cell after construction has length 1, not 2. -/
theorem c7_counterexample :
    (c7Run.2.heap c7Run.1).detachHandlers.length = 1
    ∧ (c7Run.2.heap c7Run.1).detachHandlers.length ≠ 2 := by
  decide

/-- C7 amended: for every `fnCell.apply argCell`, construction pushes
exactly ONE teardown entry onto the teardown list of the derived cell — a
single handler that, when run, unsubscribes the recorded key from
`fnCell` and the other recorded key from `argCell`. -/
theorem c7_apply_teardown (s : St) (fc ac : Nat) :
    ((apply s fc ac).2.heap (apply s fc ac).1).detachHandlers
      = [Handler.unsub2 fc (s.rand s.ridx) ac (s.rand (s.ridx + 1))]
    ∧ ∀ t : St,
        runHandler t (Handler.unsub2 fc (s.rand s.ridx) ac (s.rand (s.ridx + 1)))
          = unsubscribe (unsubscribe t fc (s.rand s.ridx)) ac
              (s.rand (s.ridx + 1)) := by
  constructor
  · simp only [apply]
    rw [detachHandlers_pushHandler_self, detachHandlers_subscribe,
      detachHandlers_subscribe, detachHandlers_pack_self]
    rfl
  · intro t
    rfl

/-- Replacing the value of a cell by its current value is the identity. -/
lemma setCellValue_self_value (s : St) (c : Nat) :
    setCellValue s c (getValue s c) = s :=
  updCell_eq_self s c _ rfl

/-- C8: unsubscribe stops delivery and tolerates unknown keys.
(1) If no registered entry carries key `k`, `unsubscribe` is a no-op on
the whole state.  (2) It removes exactly the entry under `k` from the
registry (`Map.delete`).  (3) If the registry was the user observers
`us1`, then `(k, user i)`, then `us2`, a subsequent `setValue` logs
exactly the observers of `us1 ++ us2`, in order — and if no other
observer has id `i`, no entry logged by that write carries `i`: the
observer registered under `k` is never invoked again. -/
theorem c8_unsubscribe (s : St) (c : Nat) (k : String) :
    ((∀ p ∈ (s.heap c).observers, p.1 ≠ k) → unsubscribe s c k = s)
    ∧ ((unsubscribe s c k).heap c).observers
        = mapDelete (s.heap c).observers k
    ∧ (∀ (us1 us2 : List (String × Nat)) (i : Nat) (v : Val) (fuel : Nat)
          (s2 : St),
        (s.heap c).observers = usersOf us1 ++ (k, Obs.user i) :: usersOf us2 →
        (∀ p ∈ us1 ++ us2, p.1 ≠ k) →
        2 * (us1 ++ us2).length + 1 < fuel →
        setValue fuel (unsubscribe s c k) c v = some s2 →
        s2.log = s.log ++ (us1 ++ us2).map
          (fun p => (p.2, computeNew v (getValue s c)))
        ∧ ((∀ p ∈ us1 ++ us2, p.2 ≠ i) →
            ∀ e ∈ s2.log.drop s.log.length, e.1 ≠ i)) := by
  have hdel : ((unsubscribe s c k).heap c).observers
      = mapDelete (s.heap c).observers k := by
    simp [unsubscribe, updCell]
  refine ⟨unsubscribe_not_mem s c k, hdel, ?_⟩
  intro us1 us2 i v fuel s2 hreg hk hfuel hsv
  have hobs : ((unsubscribe s c k).heap c).observers = usersOf (us1 ++ us2) := by
    rw [hdel, hreg]
    exact mapDelete_middle us1 us2 k i
      (fun p hp => hk p (List.mem_append_left _ hp))
      (fun p hp => hk p (List.mem_append_right _ hp))
  have hrun := setValue_users (unsubscribe s c k) c (us1 ++ us2) v fuel hobs hfuel
  rw [hsv] at hrun
  have hs2 := Option.some.inj hrun
  have hlog : s2.log = s.log ++ (us1 ++ us2).map
      (fun p => (p.2, computeNew v (getValue s c))) := by
    rw [hs2]
    simp
  refine ⟨hlog, ?_⟩
  intro hids e he
  rw [hlog, List.drop_left] at he
  simp only [List.mem_map] at he
  obtain ⟨p, hp, rfl⟩ := he
  exact hids p hp

theorem c8_witness :
    unsubscribe twoUserSt 0 "zzz" = twoUserSt
    ∧ setValue 9 (unsubscribe twoUserSt 0 "0") 0 (Val.num 7) = some c8wSt
    ∧ c8wSt.log = [(2, Val.num 7)]
    ∧ (1, Val.num 7) ∉ c8wSt.log := by
  have h3 := (c8_unsubscribe twoUserSt 0 "0").2.2 [] [("1", 2)] 1 (Val.num 7)
    9 c8wSt (by decide) (by decide) (by decide) rfl
  refine ⟨(c8_unsubscribe twoUserSt 0 "zzz").1 (by decide), rfl, ?_, ?_⟩
  · rw [h3.1]; decide
  · exact fun hm => h3.2 (by decide) (1, Val.num 7) hm rfl

/-- C9: `setValue` can never store a function as a plain value: by the
`typeof` dispatch, a function argument `Val.fn f` always lands in the
updater branch, so the stored value is `f` applied to the previous value
(`computeNew`), and the whole write behaves like any other notify-on-write;
the curried `set` helper performs the identical dispatch and delegates to
`setValue`. -/
theorem c9_setValue_updater_only (s : St) (c : Nat) (f : Fn)
    (us : List (String × Nat)) (fuel : Nat)
    (hobs : (s.heap c).observers = usersOf us)
    (hfuel : 2 * us.length + 1 < fuel) :
    computeNew (Val.fn f) (getValue s c) = applyFn f (getValue s c)
    ∧ set fuel s c (Val.fn f) = setValue fuel s c (Val.fn f)
    ∧ setValue fuel s c (Val.fn f)
        = some { setCellValue s c (applyFn f (getValue s c)) with
                 log := s.log ++ us.map
                   (fun p => (p.2, applyFn f (getValue s c))) } := by
  refine ⟨rfl, rfl, ?_⟩
  exact setValue_users s c us (Val.fn f) fuel hobs hfuel

theorem c9_witness :
    set 9 twoUserSt 0 (Val.fn (Fn.addK 3))
      = setValue 9 twoUserSt 0 (Val.fn (Fn.addK 3))
    ∧ (setValue 9 twoUserSt 0 (Val.fn (Fn.addK 3))).map
        (fun t => getValue t 0) = some (Val.num 8) := by
  have h := c9_setValue_updater_only twoUserSt 0 (Fn.addK 3)
    [("0", 1), ("1", 2)] 9 (by decide) (by decide)
  refine ⟨h.2.1, ?_⟩
  rw [h.2.2]
  decide

/-- C10: no change-detection: even when the value to store equals the
previous value of the cell, `setValue` stores it and still invokes every
currently registered observer with it — the resulting state is unchanged
except that the log records one invocation per observer, in registry
order, with the (unchanged) value. -/
theorem c10_no_change_detection (s : St) (c : Nat) (us : List (String × Nat))
    (v : Val) (fuel : Nat) (hobs : (s.heap c).observers = usersOf us)
    (hsame : computeNew v (getValue s c) = getValue s c)
    (hfuel : 2 * us.length + 1 < fuel) :
    setValue fuel s c v
      = some { s with log := s.log ++ us.map (fun p => (p.2, getValue s c)) } := by
  have h := setValue_users s c us v fuel hobs hfuel
  rw [hsame] at h
  rw [h, setCellValue_self_value]

theorem c10_witness :
    getValue twoUserSt 0 = Val.num 5
    ∧ setValue 9 twoUserSt 0 (Val.num 5)
        = some { twoUserSt with log := [(1, Val.num 5), (2, Val.num 5)] } := by
  refine ⟨by decide, ?_⟩
  have h := c10_no_change_detection twoUserSt 0 [("0", 1), ("1", 2)]
    (Val.num 5) 9 (by decide) (by decide) (by decide)
  rw [h]
  rfl

end RBox
